import Mathlib

/-!
# Verification of the `whoami` document core (`src/app.py`)

A shallow embedding of the pure core of `src/app.py`: front-matter parsing
for the two document kinds (posts and roadmap entries), excerpt extraction,
the multi-format deadline parser, the three ranking policies, and the two
load operations.

Modelling conventions:

* Python `str` is Lean `String`; the Python string primitives used by the
  code (`strip`, `rstrip`, `lower`, `splitlines`, `split`, `startswith`,
  `replace`, `join`) are re-implemented below on `List Char`, restricted to
  ASCII data (the documents' field keys and values of interest are ASCII;
  Unicode-specific behaviour of CPython's `str.lower`/`str.strip`/`int` is
  outside the model).
* `datetime` values are modelled by `PyDateTime` (year/month/day
  hour/minute/second).  `datetime.fromisoformat` is modelled restricted to
  the extended format `YYYY-MM-DD[<sep>HH:MM[:SS]]` with an arbitrary
  single-character separator; fractional seconds, timezone offsets and the
  compressed/partial forms accepted by CPython 3.11 are outside the model.
* Timestamps (`datetime.timestamp()`, `st_mtime`, differences of datetimes)
  are integer seconds; the constant local-time offset CPython applies to
  naive timestamps is an order-preserving shift and is not modelled.
* The markdown renderer is an external collaborator: `content_html` holds
  the exact text handed to it (the core only decides *what* gets rendered).
* The file system is external: the load operations take an explicit list of
  `SrcFile` records (file name, text, modification time), and the wall
  clock (`datetime.now()`) is an explicit integer parameter `now`.
-/

/-! ## Definitions -/

/-- The six ASCII whitespace characters stripped by Python's `str.strip()`. -/
def isPySpace (c : Char) : Bool :=
  c = ' ' || c = '\t' || c = '\n' || c = '\r' || c = '\x0b' || c = '\x0c'

/-- Python `s.lstrip()` on raw character data. -/
def pyLstripData (l : List Char) : List Char := l.dropWhile isPySpace

/-- Python `s.rstrip()` on raw character data. -/
def pyRstripData (l : List Char) : List Char := (l.reverse.dropWhile isPySpace).reverse

/-- Python `s.strip()` on raw character data. -/
def pyStripData (l : List Char) : List Char := pyLstripData (pyRstripData l)

/-- Python `s.rstrip()`. -/
def pyRstrip (s : String) : String := ⟨pyRstripData s.data⟩

/-- Python `s.strip()`. -/
def pyStrip (s : String) : String := ⟨pyStripData s.data⟩

/-- Python `s.rstrip("%")` on raw character data: drops all trailing `%`. -/
def rstripPctData (l : List Char) : List Char := (l.reverse.dropWhile (· = '%')).reverse

/-- Python `s.rstrip("%")`. -/
def rstripPct (s : String) : String := ⟨rstripPctData s.data⟩

/-- Python `s.lower()`, restricted to ASCII letters. -/
def asciiLower (s : String) : String := ⟨s.data.map Char.toLower⟩

/-- `listStartsWith s p` is Python `s.startswith(p)` on raw character data. -/
def listStartsWith : List Char → List Char → Bool
  | _, [] => true
  | [], _ :: _ => false
  | c :: cs, p :: ps => c = p && listStartsWith cs ps

/-- Python `s.startswith(p)`. -/
def startsWithS (s p : String) : Bool := listStartsWith s.data p.data

/-- The text after the first `:`, i.e. Python `s.split(":", 1)[1]`
(empty when no colon occurs; the code only applies it to lines that
contain one). -/
def afterFirstColonData : List Char → List Char
  | [] => []
  | ':' :: rest => rest
  | _ :: rest => afterFirstColonData rest

/-- Python `line.split(":", 1)[1]`. -/
def afterColon (s : String) : String := ⟨afterFirstColonData s.data⟩

/-- Python `str.splitlines` (universal newlines `\n`, `\r`, `\r\n`):
no trailing empty line for a trailing newline, `[]` for the empty string. -/
def splitlinesAux : List Char → List Char → List (List Char)
  | acc, [] => if acc.isEmpty then [] else [acc.reverse]
  | acc, '\r' :: '\n' :: rest => acc.reverse :: splitlinesAux [] rest
  | acc, '\r' :: rest => acc.reverse :: splitlinesAux [] rest
  | acc, '\n' :: rest => acc.reverse :: splitlinesAux [] rest
  | acc, c :: rest => splitlinesAux (c :: acc) rest

/-- Python `text.splitlines()`. -/
def splitlines (s : String) : List String :=
  (splitlinesAux [] s.data).map fun l => ⟨l⟩

/-- Python `"\n".join` on raw character data. -/
def joinNLData : List (List Char) → List Char
  | [] => []
  | [x] => x
  | x :: xs => x ++ '\n' :: joinNLData xs

/-- Python `"\n".join(lines)`. -/
def joinNL (ls : List String) : String := ⟨joinNLData (ls.map String.data)⟩

/-- Python `body.split("\n\n")`: split on non-overlapping double newlines,
left to right; `""` yields `[""]`. -/
def splitParasAux : List Char → List Char → List (List Char)
  | acc, [] => [acc.reverse]
  | acc, '\n' :: '\n' :: rest => acc.reverse :: splitParasAux [] rest
  | acc, c :: rest => splitParasAux (c :: acc) rest

/-- Python `body.split("\n\n")`. -/
def splitParas (s : String) : List String :=
  (splitParasAux [] s.data).map fun l => ⟨l⟩

/-- Python `s.replace("\n", " ")`. -/
def nlToSpace (s : String) : String :=
  ⟨s.data.map fun c => if c = '\n' then ' ' else c⟩

/-- Digit run of a Python integer literal after the first digit:
single underscores are allowed between digits only. -/
def pyDigitsAux : Nat → List Char → Option Nat
  | acc, [] => some acc
  | _, ['_'] => none
  | acc, '_' :: c :: rest =>
    if c.isDigit then pyDigitsAux (acc * 10 + (c.toNat - 48)) rest else none
  | acc, c :: rest =>
    if c.isDigit then pyDigitsAux (acc * 10 + (c.toNat - 48)) rest else none

/-- A nonempty digit run (with embedded single underscores) as a `Nat`. -/
def pyDigits : List Char → Option Nat
  | [] => none
  | c :: rest => if c.isDigit then pyDigitsAux (c.toNat - 48) rest else none

/-- Python `int(s)` restricted to ASCII decimal literals: surrounding
whitespace stripped, an optional sign, digits with single embedded
underscores.  Returns `none` where CPython raises `ValueError`. -/
def parsePyInt (s : String) : Option Int :=
  match pyStripData s.data with
  | '+' :: rest => (pyDigits rest).map Int.ofNat
  | '-' :: rest => (pyDigits rest).map fun n => -(n : Int)
  | rest => (pyDigits rest).map Int.ofNat

/-- A naive `datetime.datetime` value, to second precision. -/
structure PyDateTime where
  year : Nat
  month : Nat
  day : Nat
  hour : Nat
  minute : Nat
  second : Nat
deriving DecidableEq, Repr

/-- Gregorian leap-year rule. -/
def isLeapYear (y : Nat) : Bool := (y % 4 = 0 && y % 100 ≠ 0) || y % 400 = 0

/-- Days in a month of a given year (0 for invalid month numbers). -/
def daysInMonth (y m : Nat) : Nat :=
  match m with
  | 1 => 31 | 2 => if isLeapYear y then 29 else 28 | 3 => 31 | 4 => 30
  | 5 => 31 | 6 => 30 | 7 => 31 | 8 => 31 | 9 => 30 | 10 => 31
  | 11 => 30 | 12 => 31 | _ => 0

/-- The validity check performed by the `datetime` constructor
(`MINYEAR = 1`, `MAXYEAR = 9999`). -/
def validDateTime (y m d hh mm ss : Nat) : Bool :=
  1 ≤ y && y ≤ 9999 && 1 ≤ m && m ≤ 12 && 1 ≤ d && d ≤ daysInMonth y m &&
    hh ≤ 23 && mm ≤ 59 && ss ≤ 59

/-- Build a `PyDateTime` exactly when the `datetime` constructor accepts it. -/
def mkPyDateTime (y m d hh mm ss : Nat) : Option PyDateTime :=
  if validDateTime y m d hh mm ss then some ⟨y, m, d, hh, mm, ss⟩ else none

/-- Value of a two-digit field. -/
def twoDigits (a b : Char) : Option Nat :=
  if a.isDigit && b.isDigit then some ((a.toNat - 48) * 10 + (b.toNat - 48)) else none

/-- Value of a four-digit field. -/
def fourDigits (a b c d : Char) : Option Nat :=
  if a.isDigit && b.isDigit && c.isDigit && d.isDigit then
    some (((a.toNat - 48) * 10 + (b.toNat - 48)) * 100 + (c.toNat - 48) * 10 + (d.toNat - 48))
  else none

/-- The `HH:MM[:SS]` tail of an ISO date-time. -/
def parseIsoTime : List Char → Option (Nat × Nat × Nat)
  | [h1, h2, ':', m1, m2] =>
    match twoDigits h1 h2, twoDigits m1 m2 with
    | some hh, some mm => some (hh, mm, 0)
    | _, _ => none
  | [h1, h2, ':', m1, m2, ':', s1, s2] =>
    match twoDigits h1 h2, twoDigits m1 m2, twoDigits s1 s2 with
    | some hh, some mm, some ss => some (hh, mm, ss)
    | _, _, _ => none
  | _ => none

/-- `datetime.fromisoformat`, restricted to the extended format
`YYYY-MM-DD[<sep>HH:MM[:SS]]` (any single separator character, as in
CPython 3.11); fractional seconds, offsets and compressed forms are
outside the model. -/
def fromisoformat (s : String) : Option PyDateTime :=
  match s.data with
  | [y1, y2, y3, y4, '-', m1, m2, '-', d1, d2] =>
    match fourDigits y1 y2 y3 y4, twoDigits m1 m2, twoDigits d1 d2 with
    | some y, some m, some d => mkPyDateTime y m d 0 0 0
    | _, _, _ => none
  | y1 :: y2 :: y3 :: y4 :: '-' :: m1 :: m2 :: '-' :: d1 :: d2 :: _ :: time =>
    match fourDigits y1 y2 y3 y4, twoDigits m1 m2, twoDigits d1 d2, parseIsoTime time with
    | some y, some m, some d, some (hh, mm, ss) => mkPyDateTime y m d hh mm ss
    | _, _, _, _ => none
  | _ => none

/-- Split on every occurrence of a separator character (Python
`s.split(sep)` for a single-character separator). -/
def splitOnCharAux (sep : Char) : List Char → List Char → List (List Char)
  | acc, [] => [acc.reverse]
  | acc, c :: rest =>
    if c = sep then acc.reverse :: splitOnCharAux sep [] rest
    else splitOnCharAux sep (c :: acc) rest

/-- A run of one or two ASCII digits, as CPython `strptime`'s `%m`/`%d`
patterns match. -/
def oneOrTwoDigits : List Char → Option Nat
  | [c] => if c.isDigit then some (c.toNat - 48) else none
  | [a, b] =>
    if a.isDigit && b.isDigit then some ((a.toNat - 48) * 10 + (b.toNat - 48)) else none
  | _ => none

/-- `datetime.strptime(value, "%Y-%m-%d")`: exactly four digits for `%Y`,
one or two digits for `%m` and `%d`, the whole string consumed, then the
`datetime` constructor's validity check. -/
def strptimeDash (s : String) : Option PyDateTime :=
  match splitOnCharAux '-' [] s.data with
  | [[y1, y2, y3, y4], mp, dp] =>
    match fourDigits y1 y2 y3 y4, oneOrTwoDigits mp, oneOrTwoDigits dp with
    | some y, some m, some d => mkPyDateTime y m d 0 0 0
    | _, _, _ => none
  | _ => none

/-- `datetime.strptime(value, "%Y/%m/%d")`. -/
def strptimeSlash (s : String) : Option PyDateTime :=
  match splitOnCharAux '/' [] s.data with
  | [[y1, y2, y3, y4], mp, dp] =>
    match fourDigits y1 y2 y3 y4, oneOrTwoDigits mp, oneOrTwoDigits dp with
    | some y, some m, some d => mkPyDateTime y m d 0 0 0
    | _, _, _ => none
  | _ => none

/-- Days before the first of a month within a year. -/
def daysBeforeMonth (y m : Nat) : Nat :=
  (List.range (m - 1)).foldl (fun a i => a + daysInMonth y (i + 1)) 0

/-- Proleptic-Gregorian day number of a date, with `0001-01-01` as day 0
(CPython's `date.toordinal()` minus one). -/
def toOrdinalDays (y m d : Nat) : Nat :=
  365 * (y - 1) + (y - 1) / 4 - (y - 1) / 100 + (y - 1) / 400 + daysBeforeMonth y m + (d - 1)

/-- `datetime.timestamp()` as integer seconds since `1970-01-01 00:00:00`
(the epoch's day number is 719162; the constant local-utc offset CPython
applies to naive datetimes is an order-preserving shift, not modelled). -/
def toTimestamp (dt : PyDateTime) : Int :=
  ((toOrdinalDays dt.year dt.month dt.day : Int) - 719162) * 86400
    + dt.hour * 3600 + dt.minute * 60 + dt.second

/-- `Post` (`src/app.py` lines 36-43); `content_html` holds the text handed
to the external markdown renderer, `updated_at` the file's `st_mtime` in
integer seconds. -/
structure Post where
  slug : String
  title : String
  excerpt : String
  content_html : String
  published_at : Option PyDateTime
  updated_at : Int
deriving DecidableEq, Repr

/-- `RoadmapEntry` (`src/app.py` lines 46-56). -/
structure RoadmapEntry where
  slug : String
  title : String
  status : String
  status_class : String
  deadline : Option String
  progress : Option Int
  excerpt : String
  content_html : String
  updated_at : Int
deriving DecidableEq, Repr

/-- A source file as the document loader sees it: file name, text content,
last-modified time in integer seconds. -/
structure SrcFile where
  name : String
  text : String
  mtime : Int
deriving DecidableEq, Repr

/-- `line.lower().startswith("date:")`. -/
def isDateLine (line : String) : Bool := startsWithS (asciiLower line) "date:"

/-- `line.lower().startswith("status:")`. -/
def isStatusLine (line : String) : Bool := startsWithS (asciiLower line) "status:"

/-- `line.lower().startswith("deadline:")`. -/
def isDeadlineLine (line : String) : Bool := startsWithS (asciiLower line) "deadline:"

/-- `line.lower().startswith("progress:")`. -/
def isProgressLine (line : String) : Bool := startsWithS (asciiLower line) "progress:"

/-- The trimmed value of a field line: `line.split(":", 1)[1].strip()`. -/
def fieldValue (line : String) : String := pyStrip (afterColon line)

/-- The processed value of a progress line:
`line.split(":", 1)[1].strip().rstrip("%")`. -/
def progressValue (line : String) : String := rstripPct (fieldValue line)

/-- The field-scanning loop of `_parse_markdown` (`src/app.py` lines 68-79):
carries `published_at` and returns it with the retained body lines.  A
nonempty `date:` value replaces `published_at` by its ISO parse, `none` on
failure; field lines are removed from the body. -/
def postScan : Option PyDateTime → List String → Option PyDateTime × List String
  | pub, [] => (pub, [])
  | pub, line :: rest =>
    if isDateLine line then
      let v := fieldValue line
      postScan (if v = "" then pub else fromisoformat v) rest
    else
      let r := postScan pub rest
      (r.1, line :: r.2)

/-- The field-scanning loop of `_parse_roadmap_entry` (`src/app.py` lines
168-189): carries `(status, deadline, progress)` and returns them with the
retained body lines. -/
def roadScan :
    String → Option String → Option Int → List String →
      (String × Option String × Option Int) × List String
  | st, dl, pr, [] => ((st, dl, pr), [])
  | st, dl, pr, line :: rest =>
    if isStatusLine line then
      let v := fieldValue line
      roadScan (if v = "" then st else v) dl pr rest
    else if isDeadlineLine line then
      let v := fieldValue line
      roadScan st (if v = "" then dl else some v) pr rest
    else if isProgressLine line then
      let v := progressValue line
      let pr' := if v = "" then pr else
        match parsePyInt v with
        | some n => if 0 ≤ n ∧ n ≤ 100 then some n else pr
        | none => pr
      roadScan st dl pr' rest
    else
      let r := roadScan st dl pr rest
      (r.1, line :: r.2)

/-- `_extract_excerpt`'s loop over paragraphs (`src/app.py` lines 96-100). -/
def excerptLoop : List String → String
  | [] => ""
  | p :: rest =>
    let clean := pyStrip p
    if clean = "" then excerptLoop rest else nlToSpace clean

/-- `_extract_excerpt` (`src/app.py` lines 95-100). -/
def extractExcerpt (body_text : String) : String := excerptLoop (splitParas body_text)

/-- Whether the first line is a title line (`lines[0].startswith("# ")`). -/
def hasTitleLine (lines : List String) : Bool :=
  match lines with
  | l0 :: _ => startsWithS l0 "# "
  | [] => false

/-- The title derived from a title line: `lines[0][2:].strip() or "Untitled"`. -/
def titleOfLine (l0 : String) : String :=
  let t := pyStrip ⟨l0.data.drop 2⟩
  if t = "" then "Untitled" else t

/-- `_parse_markdown` on already-split, rstripped lines; returns
`(title, excerpt, render_text, published_at)` where `render_text` is the
string handed to `markdown.markdown`. -/
def parseMarkdownLines (lines : List String) :
    String × String × String × Option PyDateTime :=
  let titled := hasTitleLine lines
  let title := match lines with
    | l0 :: _ => if startsWithS l0 "# " then titleOfLine l0 else "Untitled"
    | [] => "Untitled"
  let scanned := postScan none (if titled then lines.tail else lines)
  let body_text := pyStrip (joinNL scanned.2)
  let excerpt := extractExcerpt body_text
  let render_lines := match lines with
    | l0 :: _ => if startsWithS l0 "# " then l0 :: scanned.2 else scanned.2
    | [] => scanned.2
  (title, excerpt, pyStrip (joinNL render_lines), scanned.1)

/-- `_parse_markdown` (`src/app.py` lines 59-92). -/
def parseMarkdown (md_text : String) : String × String × String × Option PyDateTime :=
  parseMarkdownLines ((splitlines md_text).map pyRstrip)

/-- `_parse_roadmap_entry` on already-split, rstripped lines; returns
`(title, status, render_text, deadline, progress, excerpt)`. -/
def parseRoadmapLines (lines : List String) :
    String × String × String × Option String × Option Int × String :=
  let titled := hasTitleLine lines
  let title := match lines with
    | l0 :: _ => if startsWithS l0 "# " then titleOfLine l0 else "Untitled"
    | [] => "Untitled"
  let scanned := roadScan "Now" none none (if titled then lines.tail else lines)
  let body_text := pyStrip (joinNL scanned.2)
  let excerpt := extractExcerpt body_text
  (title, scanned.1.1, body_text, scanned.1.2.1, scanned.1.2.2, excerpt)

/-- `_parse_roadmap_entry` (`src/app.py` lines 154-197). -/
def parseRoadmapEntry (md_text : String) :
    String × String × String × Option String × Option Int × String :=
  parseRoadmapLines ((splitlines md_text).map pyRstrip)

/-- `_parse_deadline` (`src/app.py` lines 103-115): `None`/empty give no
deadline; otherwise try `fromisoformat`, then `%Y-%m-%d`, then `%Y/%m/%d`,
first success wins; all failing gives no deadline. -/
def parseDeadline : Option String → Option PyDateTime
  | none => none
  | some s =>
    if s = "" then none
    else
      match fromisoformat s with
      | some d => some d
      | none =>
        match strptimeDash s with
        | some d => some d
        | none => strptimeSlash s

/-- `_status_rank` (`src/app.py` lines 118-124). -/
def statusRank (status : String) : Nat :=
  let k := asciiLower (pyStrip status)
  if k = "now" then 0 else if k = "next" then 1
  else if k = "later" then 2 else if k = "done" then 3 else 0

/-- `_roadmap_sort_key` (`src/app.py` lines 127-133), with `now` the
wall-clock timestamp.  The third component models the float distance, with
`⊤` for `float("inf")`; the fourth is `-updated_at.timestamp()`. -/
def roadmapSortKey (now : Int) (e : RoadmapEntry) :
    Nat ×ₗ Nat ×ₗ (WithTop Int) ×ₗ Int :=
  let rank := statusRank e.status
  match parseDeadline e.deadline with
  | none => toLex (rank, toLex (1, toLex ((⊤ : WithTop Int), -e.updated_at)))
  | some dt =>
    toLex (rank, toLex (0, toLex (((toTimestamp dt - now).natAbs : Int), -e.updated_at)))

/-- `_homepage_sort_key` (`src/app.py` lines 136-141). -/
def homepageSortKey (e : RoadmapEntry) : Int ×ₗ Nat ×ₗ WithTop Int :=
  let progress : Int := match e.progress with | some p => p | none => -1
  match parseDeadline e.deadline with
  | none => toLex (-progress, toLex (1, (⊤ : WithTop Int)))
  | some dt => toLex (-progress, toLex (0, (toTimestamp dt : WithTop Int)))

/-- Comparison used by `entries.sort(key=_roadmap_sort_key)`. -/
def roadLE (now : Int) (a b : RoadmapEntry) : Bool :=
  decide (roadmapSortKey now a ≤ roadmapSortKey now b)

/-- Comparison used by `candidates.sort(key=_homepage_sort_key)`. -/
def homeLE (a b : RoadmapEntry) : Bool :=
  decide (homepageSortKey a ≤ homepageSortKey b)

/-- The filter of `_select_homepage_entries`:
`entry.progress is not None and entry.progress < 100`. -/
def eligibleHomepage (e : RoadmapEntry) : Bool :=
  match e.progress with
  | some p => decide (p < 100)
  | none => false

/-- `_select_homepage_entries` (`src/app.py` lines 144-151): filter, stable
sort by `_homepage_sort_key`, first three. -/
def selectHomepageEntries (entries : List RoadmapEntry) : List RoadmapEntry :=
  (((entries.filter eligibleHomepage).mergeSort homeLE).take 3)

/-- `Path.stem` for a `*.md` file name. -/
def stemOf (n : String) : String :=
  if n.data.length ≥ 3 then ⟨n.data.take (n.data.length - 3)⟩ else n

/-- `sorted(DIR.glob("*.md"))`: lexicographic file-name order. -/
def sortFilesByName (fs : List SrcFile) : List SrcFile :=
  fs.mergeSort fun a b => decide (a.name ≤ b.name)

/-- Construction of one `Post` in `load_posts` (`src/app.py` lines 203-215). -/
def buildPost (f : SrcFile) : Post :=
  let r := parseMarkdown f.text
  { slug := stemOf f.name
    title := r.1
    excerpt := r.2.1
    content_html := r.2.2.1
    published_at := r.2.2.2
    updated_at := f.mtime }

/-- Ordering used by `posts.sort(key=..., reverse=True)`: stable descending
on `updated_at`. -/
def postLE (a b : Post) : Bool := decide (b.updated_at ≤ a.updated_at)

/-- `load_posts` (`src/app.py` lines 200-217) over an explicit file list. -/
def loadPosts (fs : List SrcFile) : List Post :=
  (((sortFilesByName fs).map buildPost).mergeSort postLE)

/-- The `status_class` mapping of `load_roadmap` (`src/app.py` lines 228-234). -/
def statusClassOf (status : String) : String :=
  let k := asciiLower (pyStrip status)
  if k = "now" then "status-now" else if k = "next" then "status-next"
  else if k = "later" then "status-later" else if k = "done" then "status-done"
  else "status-now"

/-- Construction of one `RoadmapEntry` in `load_roadmap` (`src/app.py`
lines 224-247). -/
def buildRoadmapEntry (f : SrcFile) : RoadmapEntry :=
  let r := parseRoadmapEntry f.text
  { slug := stemOf f.name
    title := r.1
    status := if r.2.1 = "" then "Now" else r.2.1
    status_class := statusClassOf r.2.1
    deadline := r.2.2.2.1
    progress := r.2.2.2.2.1
    excerpt := r.2.2.2.2.2
    content_html := r.2.2.1
    updated_at := f.mtime }

/-- `load_roadmap` (`src/app.py` lines 220-249) over an explicit file list,
with `now` the wall-clock timestamp used by `_roadmap_sort_key`. -/
def loadRoadmap (now : Int) (fs : List SrcFile) : List RoadmapEntry :=
  (((sortFilesByName fs).map buildRoadmapEntry).mergeSort (roadLE now))

/-- The spec's homepage 3-key tuple order, for entries that carry a
progress value: descending numeric progress; then parseable-deadline flag
(0 before 1); then, among entries with a parseable deadline, ascending
absolute deadline timestamp, no-deadline entries last in their tier.
(Entries without progress never reach the homepage sort; the relation is
vacuously true for them.) -/
def specHomeLE (a b : RoadmapEntry) : Prop :=
  match a.progress, b.progress with
  | some pa, some pb =>
    pb < pa ∨ (pa = pb ∧
      match parseDeadline a.deadline, parseDeadline b.deadline with
      | some da, some db => toTimestamp da ≤ toTimestamp db
      | some _, none => True
      | none, some _ => False
      | none, none => True)
  | _, _ => True

/-- The spec's status rank: `now`→0, `next`→1, `later`→2, `done`→3,
anything else →0, case-insensitively on the stripped status. -/
def specStatusRank (s : String) : Nat :=
  match asciiLower (pyStrip s) with
  | "now" => 0
  | "next" => 1
  | "later" => 2
  | "done" => 3
  | _ => 0

/-- The spec's roadmap full-ordering 4-key tuple order: ascending status
rank; then parseable-deadline flag (0 before 1); then, among entries with a
parseable deadline, ascending absolute time-distance in seconds between
deadline and `now` (symmetric for past and future); then descending
`updated_at`. -/
def specRoadLE (now : Int) (a b : RoadmapEntry) : Prop :=
  specStatusRank a.status < specStatusRank b.status
  ∨ (specStatusRank a.status = specStatusRank b.status ∧
    match parseDeadline a.deadline, parseDeadline b.deadline with
    | some da, some db =>
      |toTimestamp da - now| < |toTimestamp db - now|
      ∨ (|toTimestamp da - now| = |toTimestamp db - now| ∧ b.updated_at ≤ a.updated_at)
    | some _, none => True
    | none, some _ => False
    | none, none => b.updated_at ≤ a.updated_at)

/-- Homepage-selection example entry with progress 90. -/
def hpE90 : RoadmapEntry :=
  { slug := "p90", title := "P90", status := "Now", status_class := "status-now",
    deadline := none, progress := some 90, excerpt := "", content_html := "",
    updated_at := 10 }

/-- Homepage-selection example entry with no progress value. -/
def hpENone : RoadmapEntry :=
  { slug := "pn", title := "PN", status := "Later", status_class := "status-later",
    deadline := none, progress := none, excerpt := "", content_html := "",
    updated_at := 11 }

/-- Homepage-selection example entry with progress 50. -/
def hpE50 : RoadmapEntry :=
  { slug := "p50", title := "P50", status := "Next", status_class := "status-next",
    deadline := some "2025-01-01", progress := some 50, excerpt := "", content_html := "",
    updated_at := 12 }

/-- Homepage-selection example entry with progress 99. -/
def hpE99 : RoadmapEntry :=
  { slug := "p99", title := "P99", status := "Done", status_class := "status-done",
    deadline := none, progress := some 99, excerpt := "", content_html := "",
    updated_at := 13 }

/-- Homepage-selection example entry with progress 10: eligible, but
dropped by truncation when three higher-progress entries exist. -/
def hpE10 : RoadmapEntry :=
  { slug := "p10", title := "P10", status := "Now", status_class := "status-now",
    deadline := some "2024-06-01", progress := some 10, excerpt := "", content_html := "",
    updated_at := 14 }

/-- The wall-clock instant `2026-10-12 00:00:00` used in the concrete
ordering example. -/
def nowOct2026 : Int := toTimestamp ⟨2026, 10, 12, 0, 0, 0⟩

/-- A roadmap file with `status: done` and a deadline one day after
`nowOct2026`. -/
def fileDoneSoon : SrcFile := ⟨"a.md", "# A\nstatus: done\ndeadline: 2026-10-13", 0⟩

/-- A roadmap file with `status: now` and a deadline ten years after
`nowOct2026`. -/
def fileNowFar : SrcFile := ⟨"b.md", "# B\nstatus: now\ndeadline: 2036-10-12", 0⟩

/-- First example file for the post-ordering witness. -/
def pfA : SrcFile := ⟨"a.md", "# Alpha\ndate: 2024-01-05\n\nFirst body.", 500⟩

/-- Second example file for the post-ordering witness: same modification
time as `pfA`, lexicographically later name. -/
def pfB : SrcFile := ⟨"b.md", "# Beta\n\nSecond body.", 500⟩

/-- Third example file for the post-ordering witness: newer modification
time. -/
def pfC : SrcFile := ⟨"c.md", "# Gamma\n\nThird body.", 900⟩

/-- A roadmap file whose status text `WIP` is not a recognized category. -/
def fileWip : SrcFile := ⟨"w.md", "# W\nstatus: WIP\nprogress: 40", 7⟩

/-- A progress line whose processed value parses in `[0, 100]` — the only
kind of progress line that changes the stored progress. -/
def isValidProgressLine (l : String) : Bool :=
  isProgressLine l &&
    match parsePyInt (progressValue l) with
    | some n => decide (0 ≤ n ∧ n ≤ 100)
    | none => false

/-- One step of the status override: a later nonempty `status:` value
replaces the accumulator. -/
def stepStatus (acc : String) (l : String) : String :=
  if isStatusLine l && fieldValue l != "" then fieldValue l else acc

/-- One step of the deadline override: a later nonempty `deadline:` value
replaces the accumulator. -/
def stepDeadline (acc : Option String) (l : String) : Option String :=
  if isDeadlineLine l && fieldValue l != "" then some (fieldValue l) else acc

/-- One step of the progress override: a later value replaces the
accumulator only when it parses in range. -/
def stepProgress (acc : Option Int) (l : String) : Option Int :=
  if isValidProgressLine l then parsePyInt (progressValue l) else acc

/-- One step of the date override: a later nonempty `date:` value replaces
the accumulator by its parse result — `none` when parsing fails. -/
def stepDate (acc : Option PyDateTime) (l : String) : Option PyDateTime :=
  if isDateLine l && fieldValue l != "" then fromisoformat (fieldValue l) else acc

/-- The spec's words, "strip a trailing `%` if present": removes one
trailing `%` at most (the code's `rstrip("%")` removes them all). -/
def stripOneTrailingPct (s : String) : String :=
  if s.data.getLast? = some '%' then ⟨s.data.dropLast⟩ else s

/-- The spec's progress rule: present exactly when, after stripping a
trailing `%` if present, the value parses as an integer in `[0, 100]`. -/
def progressRuleSpec (v : String) : Option Int :=
  match parsePyInt (stripOneTrailingPct v) with
  | some n => if 0 ≤ n ∧ n ≤ 100 then some n else none
  | none => none

/-! ## Theorems -/

theorem homeLE_trans (a b c : RoadmapEntry) : homeLE a b → homeLE b c → homeLE a c := by
  simp only [homeLE, decide_eq_true_eq]
  exact le_trans

theorem homeLE_total (a b : RoadmapEntry) : homeLE a b || homeLE b a := by
  simp only [homeLE, Bool.or_eq_true, decide_eq_true_eq]
  exact le_total _ _

theorem roadLE_trans (now : Int) (a b c : RoadmapEntry) :
    roadLE now a b → roadLE now b c → roadLE now a c := by
  simp only [roadLE, decide_eq_true_eq]
  exact le_trans

theorem roadLE_total (now : Int) (a b : RoadmapEntry) :
    roadLE now a b || roadLE now b a := by
  simp only [roadLE, Bool.or_eq_true, decide_eq_true_eq]
  exact le_total _ _

theorem postLE_trans (a b c : Post) : postLE a b → postLE b c → postLE a c := by
  simp only [postLE, decide_eq_true_eq]
  intro h1 h2
  exact le_trans h2 h1

theorem postLE_total (a b : Post) : postLE a b || postLE b a := by
  simp only [postLE, Bool.or_eq_true, decide_eq_true_eq]
  exact le_total _ _

/-- Unfolding of the lexicographic order on a 3-component key. -/
theorem lex3_le_iff {x1 y1 : Int} {x2 y2 : Nat} {x3 y3 : WithTop Int} :
    toLex (x1, toLex (x2, x3)) ≤ toLex (y1, toLex (y2, y3)) ↔
      x1 < y1 ∨ (x1 = y1 ∧ (x2 < y2 ∨ (x2 = y2 ∧ x3 ≤ y3))) := by
  rw [Prod.Lex.le_iff, Prod.Lex.le_iff]

/-- Unfolding of the lexicographic order on a 4-component key. -/
theorem lex4_le_iff {x1 y1 x2 y2 : Nat} {x3 y3 : WithTop Int} {x4 y4 : Int} :
    toLex (x1, toLex (x2, toLex (x3, x4))) ≤ toLex (y1, toLex (y2, toLex (y3, y4))) ↔
      x1 < y1 ∨ (x1 = y1 ∧ (x2 < y2 ∨ (x2 = y2 ∧
        (x3 < y3 ∨ (x3 = y3 ∧ x4 ≤ y4))))) := by
  rw [Prod.Lex.le_iff, Prod.Lex.le_iff, Prod.Lex.le_iff]

theorem homeLE_implies_spec {a b : RoadmapEntry} (h : homeLE a b) : specHomeLE a b := by
  have hk := of_decide_eq_true h
  unfold specHomeLE
  cases hpa : a.progress with
  | none => simp
  | some pa =>
    cases hpb : b.progress with
    | none => simp
    | some pb =>
      simp only []
      unfold homepageSortKey at hk
      simp only [hpa, hpb] at hk
      cases hda : parseDeadline a.deadline with
      | none =>
        cases hdb : parseDeadline b.deadline with
        | none =>
          simp only [hda, hdb, lex3_le_iff] at hk
          simp only [hda, hdb]
          rcases hk with h1 | ⟨h1, _⟩
          · exact Or.inl (by omega)
          · exact Or.inr ⟨by omega, trivial⟩
        | some db =>
          simp only [hda, hdb, lex3_le_iff] at hk
          simp only [hda, hdb]
          rcases hk with h1 | ⟨h1, h2 | ⟨h2, _⟩⟩
          · exact Or.inl (by omega)
          · omega
          · omega
      | some da =>
        cases hdb : parseDeadline b.deadline with
        | none =>
          simp only [hda, hdb, lex3_le_iff] at hk
          simp only [hda, hdb]
          rcases hk with h1 | ⟨h1, _⟩
          · exact Or.inl (by omega)
          · exact Or.inr ⟨by omega, trivial⟩
        | some db =>
          simp only [hda, hdb, lex3_le_iff] at hk
          simp only [hda, hdb]
          rcases hk with h1 | ⟨h1, h2 | ⟨_, h3⟩⟩
          · exact Or.inl (by omega)
          · omega
          · exact Or.inr ⟨by omega, WithTop.coe_le_coe.mp h3⟩

/-- The code's `_status_rank` computes the spec's rank table. -/
theorem statusRank_eq_spec (s : String) : statusRank s = specStatusRank s := by
  unfold statusRank specStatusRank
  by_cases h1 : asciiLower (pyStrip s) = "now" <;>
    by_cases h2 : asciiLower (pyStrip s) = "next" <;>
      by_cases h3 : asciiLower (pyStrip s) = "later" <;>
        by_cases h4 : asciiLower (pyStrip s) = "done" <;>
          simp_all

theorem roadLE_implies_spec {now : Int} {a b : RoadmapEntry} (h : roadLE now a b) :
    specRoadLE now a b := by
  have hk := of_decide_eq_true h
  unfold specRoadLE
  rw [← statusRank_eq_spec, ← statusRank_eq_spec]
  unfold roadmapSortKey at hk
  cases hda : parseDeadline a.deadline with
  | none =>
    cases hdb : parseDeadline b.deadline with
    | none =>
      simp only [hda, hdb, lex4_le_iff] at hk
      simp only [hda, hdb]
      rcases hk with h1 | ⟨h1, h2 | ⟨_, h3 | ⟨_, h4⟩⟩⟩
      · exact Or.inl h1
      · omega
      · exact absurd h3 (lt_irrefl _)
      · exact Or.inr ⟨h1, by omega⟩
    | some db =>
      simp only [hda, hdb, lex4_le_iff] at hk
      simp only [hda, hdb]
      rcases hk with h1 | ⟨h1, h2 | ⟨h2, _⟩⟩
      · exact Or.inl h1
      · omega
      · omega
  | some da =>
    cases hdb : parseDeadline b.deadline with
    | none =>
      simp only [hda, hdb, lex4_le_iff] at hk
      simp only [hda, hdb]
      rcases hk with h1 | ⟨h1, _⟩
      · exact Or.inl h1
      · exact Or.inr ⟨h1, trivial⟩
    | some db =>
      simp only [hda, hdb, lex4_le_iff] at hk
      simp only [hda, hdb]
      rcases hk with h1 | ⟨h1, h2 | ⟨_, h3 | ⟨h3, h4⟩⟩⟩
      · exact Or.inl h1
      · omega
      · refine Or.inr ⟨h1, Or.inl ?_⟩
        rw [Int.abs_eq_natAbs, Int.abs_eq_natAbs]
        exact WithTop.coe_lt_coe.mp h3
      · refine Or.inr ⟨h1, Or.inr ⟨?_, by omega⟩⟩
        rw [Int.abs_eq_natAbs, Int.abs_eq_natAbs]
        exact_mod_cast h3

/-- **C1.** `_select_homepage_entries` keeps exactly the entries whose
progress is present and strictly below 100, sorted by the spec's 3-key
tuple (descending progress, parseable-deadline flag 0 before 1, ascending
deadline timestamp with no-deadline entries last in their tier), truncated
to the first three: the result is literally `take 3` of a permutation of
the eligible entries that is sorted by the spec relation — so when more
than three are eligible, the three returned are the least under that
order, and when at most three are eligible, every eligible entry appears.
The operation is a Lean function, hence pure and total. -/
theorem homepage_selection_correct (l : List RoadmapEntry) :
    (∃ sortedAll : List RoadmapEntry,
      sortedAll.Perm (l.filter eligibleHomepage)
      ∧ sortedAll.Pairwise specHomeLE
      ∧ selectHomepageEntries l = sortedAll.take 3)
    ∧ (selectHomepageEntries l).length = min 3 (l.filter eligibleHomepage).length
    ∧ (∀ e ∈ selectHomepageEntries l, e ∈ l ∧ ∃ p : Int, e.progress = some p ∧ p < 100)
    ∧ (selectHomepageEntries l).Pairwise specHomeLE
    ∧ (∀ e ∈ l, eligibleHomepage e = true →
        (l.filter eligibleHomepage).length ≤ 3 → e ∈ selectHomepageEntries l) := by
  refine ⟨?_, ?_, ?_, ?_, ?_⟩
  · refine ⟨(l.filter eligibleHomepage).mergeSort homeLE, List.mergeSort_perm _ _, ?_, rfl⟩
    exact (List.sorted_mergeSort homeLE_trans homeLE_total
      (l.filter eligibleHomepage)).imp fun h => homeLE_implies_spec h
  · simp [selectHomepageEntries]
  · intro e he
    have h1 : e ∈ (l.filter eligibleHomepage).mergeSort homeLE :=
      (List.take_sublist _ _).subset he
    have h3 := List.mem_filter.mp (List.mem_mergeSort.mp h1)
    refine ⟨h3.1, ?_⟩
    have h4 := h3.2
    unfold eligibleHomepage at h4
    cases hp : e.progress with
    | none => rw [hp] at h4; simp at h4
    | some p => rw [hp] at h4; exact ⟨p, rfl, of_decide_eq_true h4⟩
  · have hs := List.sorted_mergeSort homeLE_trans homeLE_total (l.filter eligibleHomepage)
    exact (hs.sublist (List.take_sublist _ _)).imp fun h => homeLE_implies_spec h
  · intro e hel helig hlen
    have hlen' : ((l.filter eligibleHomepage).mergeSort homeLE).length ≤ 3 := by
      rw [List.length_mergeSort]; exact hlen
    unfold selectHomepageEntries
    rw [List.take_of_length_le hlen']
    exact List.mem_mergeSort.mpr (List.mem_filter.mpr ⟨hel, helig⟩)

/-- Witness for C1: on entries with progress 90/none/50/99 the selection is
exactly the 99, 90, 50 trio in that order; with a fourth eligible entry of
progress 10 the same trio is returned and the lowest-progress entry is the
one truncated away; and the theorem's sorted-permutation characterization
applies to the four-eligible input. -/
theorem homepage_selection_witness :
    selectHomepageEntries [hpE90, hpENone, hpE50, hpE99] = [hpE99, hpE90, hpE50]
    ∧ selectHomepageEntries [hpE10, hpE90, hpENone, hpE50, hpE99] = [hpE99, hpE90, hpE50]
    ∧ (∃ sortedAll : List RoadmapEntry,
        sortedAll.Perm ([hpE10, hpE90, hpENone, hpE50, hpE99].filter eligibleHomepage)
        ∧ sortedAll.Pairwise specHomeLE
        ∧ selectHomepageEntries [hpE10, hpE90, hpENone, hpE50, hpE99] = sortedAll.take 3)
    ∧ (∀ e ∈ selectHomepageEntries [hpE90, hpENone, hpE50, hpE99],
        e ∈ [hpE90, hpENone, hpE50, hpE99] ∧ ∃ p : Int, e.progress = some p ∧ p < 100)
    ∧ (selectHomepageEntries [hpE90, hpENone, hpE50, hpE99]).Pairwise specHomeLE := by
  refine ⟨?_, ?_, (homepage_selection_correct _).1,
    (homepage_selection_correct _).2.2.1, (homepage_selection_correct _).2.2.2.1⟩
  · simp +decide [selectHomepageEntries, List.mergeSort, List.merge]
  · simp +decide [selectHomepageEntries, List.mergeSort, List.merge]

/-- **C2.** `load_roadmap` returns a permutation of the built entries
sorted by the spec's 4-key tuple (ascending status rank with now→0,
next→1, later→2, done→3 and unrecognized→0; parseable-deadline flag 0
before 1; ascending absolute time-distance from `now`, symmetric for past
and future; descending `updated_at`); in particular status rank dominates:
the `done` entry due one day from now sorts after the `now` entry due ten
years from now, even though the file enumeration listed it first. -/
theorem roadmap_full_ordering_correct :
    (∀ (now : Int) (fs : List SrcFile),
      (loadRoadmap now fs).Pairwise (specRoadLE now)
      ∧ (loadRoadmap now fs).Perm ((sortFilesByName fs).map buildRoadmapEntry))
    ∧ (buildRoadmapEntry fileDoneSoon).status = "done"
    ∧ (buildRoadmapEntry fileNowFar).status = "now"
    ∧ loadRoadmap nowOct2026 [fileDoneSoon, fileNowFar] =
        [buildRoadmapEntry fileNowFar, buildRoadmapEntry fileDoneSoon] := by
  refine ⟨?_, by decide, by decide, ?_⟩
  · intro now fs
    constructor
    · exact (List.sorted_mergeSort (roadLE_trans now) (roadLE_total now) _).imp
        fun h => roadLE_implies_spec h
    · exact List.mergeSort_perm _ _
  · simp +decide [loadRoadmap, sortFilesByName, List.mergeSort, List.merge]

/-- In a list sorted weakly by file name, a file with a strictly smaller
name occurs before one with a strictly larger name, as an ordered pair
sublist. -/
theorem pair_sublist_of_name_sorted {l : List SrcFile} {f g : SrcFile}
    (h : l.Pairwise fun a b => a.name ≤ b.name)
    (hf : f ∈ l) (hg : g ∈ l) (hlt : f.name < g.name) : [f, g].Sublist l := by
  induction l with
  | nil => cases hf
  | cons a t ih =>
    rcases List.mem_cons.mp hf with rfl | hft
    · rcases List.mem_cons.mp hg with rfl | hgt
      · exact absurd hlt (lt_irrefl _)
      · exact (List.singleton_sublist.mpr hgt).cons₂ f
    · rcases List.mem_cons.mp hg with rfl | hgt
      · have hle : g.name ≤ f.name := (List.pairwise_cons.mp h).1 f hft
        exact absurd hlt (not_lt.mpr hle)
      · exact (ih (List.pairwise_cons.mp h).2 hft hgt).cons a

/-- The file enumeration `sorted(DIR.glob("*.md"))` is sorted by name. -/
theorem sortFilesByName_sorted (fs : List SrcFile) :
    (sortFilesByName fs).Pairwise fun a b => a.name ≤ b.name := by
  have hs := @List.sorted_mergeSort SrcFile (fun a b => decide (a.name ≤ b.name))
    (fun a b c h1 h2 => by
      simp only [decide_eq_true_eq] at *
      exact le_trans h1 h2)
    (fun a b => by
      simp only [Bool.or_eq_true, decide_eq_true_eq]
      exact le_total _ _)
    fs
  exact hs.imp fun h => of_decide_eq_true h

/-- **C4.** `load_posts` sorts descending by `updated_at`, returns a
permutation of the posts built from the name-ordered file enumeration, and
the sort is stable: two posts with identical `updated_at` keep the
enumeration order (lexicographically smaller file name first). -/
theorem post_ordering_correct (fs : List SrcFile) :
    (loadPosts fs).Pairwise (fun a b => b.updated_at ≤ a.updated_at)
    ∧ (loadPosts fs).Perm ((sortFilesByName fs).map buildPost)
    ∧ (∀ f g, f ∈ fs → g ∈ fs → f.name < g.name →
        (buildPost f).updated_at = (buildPost g).updated_at →
        [buildPost f, buildPost g].Sublist (loadPosts fs)) := by
  refine ⟨?_, ?_, ?_⟩
  · exact (List.sorted_mergeSort postLE_trans postLE_total _).imp
      fun h => of_decide_eq_true h
  · exact List.mergeSort_perm _ _
  · intro f g hf hg hlt heq
    have hf' : f ∈ sortFilesByName fs := by
      unfold sortFilesByName
      exact List.mem_mergeSort.mpr hf
    have hg' : g ∈ sortFilesByName fs := by
      unfold sortFilesByName
      exact List.mem_mergeSort.mpr hg
    have hpair : [f, g].Sublist (sortFilesByName fs) :=
      pair_sublist_of_name_sorted (sortFilesByName_sorted fs) hf' hg' hlt
    have hmap : [buildPost f, buildPost g].Sublist ((sortFilesByName fs).map buildPost) :=
      hpair.map buildPost
    exact List.pair_sublist_mergeSort postLE_trans postLE_total
      (by simp only [postLE, heq, decide_eq_true_eq]; exact le_refl _) hmap

/-- Witness for C4: with two files tied at `updated_at = 500` and one at
`900`, the load yields the newest first and the tied pair in file-name
order, matching the theorem's stability statement at this input. -/
theorem post_ordering_witness :
    loadPosts [pfC, pfB, pfA] = [buildPost pfC, buildPost pfA, buildPost pfB]
    ∧ [buildPost pfA, buildPost pfB].Sublist (loadPosts [pfC, pfB, pfA]) := by
  constructor
  · simp +decide [loadPosts, sortFilesByName, List.mergeSort, List.merge]
  · exact (post_ordering_correct [pfC, pfB, pfA]).2.2 pfA pfB (by simp) (by simp)
      (by rw [String.lt_iff_toList_lt]; decide) (by decide)

/-- **C5.** `_parse_deadline` tries ISO-8601, then `YYYY-MM-DD`, then
`YYYY/MM/DD`, returning the first successful parse; a missing or empty
string, or one no format accepts, gives no deadline — never an error. -/
theorem deadline_parsing_order :
    parseDeadline none = none
    ∧ parseDeadline (some "") = none
    ∧ (∀ (s : String) (d : PyDateTime),
        fromisoformat s = some d → parseDeadline (some s) = some d)
    ∧ (∀ (s : String) (d : PyDateTime), fromisoformat s = none →
        strptimeDash s = some d → parseDeadline (some s) = some d)
    ∧ (∀ (s : String) (d : PyDateTime), fromisoformat s = none →
        strptimeDash s = none → strptimeSlash s = some d →
        parseDeadline (some s) = some d)
    ∧ (∀ s : String, fromisoformat s = none → strptimeDash s = none →
        strptimeSlash s = none → parseDeadline (some s) = none) := by
  refine ⟨rfl, rfl, ?_, ?_, ?_, ?_⟩
  · intro s d h1
    have hne : ¬s = "" := by
      intro he
      rw [he, show fromisoformat "" = none from rfl] at h1
      exact Option.noConfusion h1
    simp [parseDeadline, hne, h1]
  · intro s d h1 h2
    by_cases he : s = ""
    · rw [he, show strptimeDash "" = none from rfl] at h2
      exact Option.noConfusion h2
    · simp [parseDeadline, he, h1, h2]
  · intro s d h1 h2 h3
    by_cases he : s = ""
    · rw [he, show strptimeSlash "" = none from rfl] at h3
      exact Option.noConfusion h3
    · simp [parseDeadline, he, h1, h2, h3]
  · intro s h1 h2 h3
    by_cases he : s = ""
    · simp [parseDeadline, he]
    · simp [parseDeadline, he, h1, h2, h3]

/-- Witness for C5: a full ISO date-time parses in the first attempt; a
non-padded `2024-1-5` fails ISO but parses as `%Y-%m-%d`; `2024/01/05`
reaches the third attempt; `13/01/2024` fails all three. -/
theorem deadline_parsing_order_witness :
    parseDeadline (some "2024-01-05T10:30:00") = some ⟨2024, 1, 5, 10, 30, 0⟩
    ∧ parseDeadline (some "2024-1-5") = some ⟨2024, 1, 5, 0, 0, 0⟩
    ∧ parseDeadline (some "2024/01/05") = some ⟨2024, 1, 5, 0, 0, 0⟩
    ∧ parseDeadline (some "13/01/2024") = none := by
  refine ⟨deadline_parsing_order.2.2.1 _ _ (by decide),
    deadline_parsing_order.2.2.2.1 _ _ (by decide) (by decide),
    deadline_parsing_order.2.2.2.2.1 _ _ (by decide) (by decide) (by decide),
    deadline_parsing_order.2.2.2.2.2 _ (by decide) (by decide) (by decide)⟩

/-- **C9.** `_extract_excerpt` splits the body on blank-line boundaries and
returns the first paragraph that is nonempty after trimming, internal
newlines replaced by spaces, or `""` when there is none; it is a total Lean
function.  `"Para one.\n\nPara two."` yields `"Para one."` and all-blank
bodies yield `""`. -/
theorem excerpt_extraction_correct :
    (∀ body : String, extractExcerpt body =
      ((((splitParas body).map pyStrip).find? fun c => c != "").map nlToSpace).getD "")
    ∧ extractExcerpt "Para one.\n\nPara two." = "Para one."
    ∧ extractExcerpt "" = ""
    ∧ extractExcerpt " \n \n " = "" := by
  refine ⟨?_, by decide, by decide, by decide⟩
  intro body
  unfold extractExcerpt
  generalize splitParas body = ps
  induction ps with
  | nil => rfl
  | cons p rest ih =>
    by_cases h : pyStrip p = ""
    · simpa [excerptLoop, h] using ih
    · simp [excerptLoop, h]

/-- The scanned status never becomes empty: it starts at `"Now"` and is
only replaced by nonempty field values. -/
theorem roadScan_status_ne_empty (lines : List String) :
    ∀ st dl pr, st ≠ "" → (roadScan st dl pr lines).1.1 ≠ "" := by
  induction lines with
  | nil => intro st dl pr h; exact h
  | cons line rest ih =>
    intro st dl pr h
    by_cases h1 : isStatusLine line = true
    · by_cases h2 : fieldValue line = ""
      · simpa [roadScan, h1, h2] using ih st dl pr h
      · simpa [roadScan, h1, h2] using ih (fieldValue line) dl pr h2
    · by_cases h3 : isDeadlineLine line = true
      · simpa [roadScan, h1, h3] using ih st _ pr h
      · by_cases h4 : isProgressLine line = true
        · simpa [roadScan, h1, h3, h4] using ih st dl _ h
        · simpa [roadScan, h1, h3, h4] using ih st dl pr h

/-- `statusClassOf` only produces the four known classes. -/
theorem statusClassOf_mem_four (s : String) :
    statusClassOf s = "status-now" ∨ statusClassOf s = "status-next"
    ∨ statusClassOf s = "status-later" ∨ statusClassOf s = "status-done" := by
  unfold statusClassOf
  by_cases h1 : asciiLower (pyStrip s) = "now" <;>
    by_cases h2 : asciiLower (pyStrip s) = "next" <;>
      by_cases h3 : asciiLower (pyStrip s) = "later" <;>
        by_cases h4 : asciiLower (pyStrip s) = "done" <;>
          simp [h1, h2, h3, h4]

/-- **C7.** Every entry built by `load_roadmap` has a `status_class` among
the four known categories, equal to the case-insensitive mapping of its
own status string, and any status text outside the four recognized words
maps to `"status-now"`. -/
theorem status_class_invariant (now : Int) (fs : List SrcFile)
    (e : RoadmapEntry) (he : e ∈ loadRoadmap now fs) :
    (e.status_class = "status-now" ∨ e.status_class = "status-next"
      ∨ e.status_class = "status-later" ∨ e.status_class = "status-done")
    ∧ e.status_class = statusClassOf e.status
    ∧ (∀ s : String, asciiLower (pyStrip s) ≠ "now" → asciiLower (pyStrip s) ≠ "next" →
        asciiLower (pyStrip s) ≠ "later" → asciiLower (pyStrip s) ≠ "done" →
        statusClassOf s = "status-now") := by
  have hmem : e ∈ (sortFilesByName fs).map buildRoadmapEntry := by
    unfold loadRoadmap at he
    exact List.mem_mergeSort.mp he
  obtain ⟨f, -, rfl⟩ := List.mem_map.mp hmem
  refine ⟨statusClassOf_mem_four _, ?_, ?_⟩
  · have hne : (parseRoadmapEntry f.text).2.1 ≠ "" := by
      unfold parseRoadmapEntry parseRoadmapLines
      exact roadScan_status_ne_empty _ _ _ _ (by decide)
    simp [buildRoadmapEntry, hne]
  · intro s n1 n2 n3 n4
    simp [statusClassOf, n1, n2, n3, n4]

/-- Witness for C7: the entry built from an unrecognized status `WIP` is in
the load result and the theorem yields its `status_class`; concretely the
class is `"status-now"`. -/
theorem status_class_invariant_witness :
    ((buildRoadmapEntry fileWip).status_class = "status-now"
      ∨ (buildRoadmapEntry fileWip).status_class = "status-next"
      ∨ (buildRoadmapEntry fileWip).status_class = "status-later"
      ∨ (buildRoadmapEntry fileWip).status_class = "status-done")
    ∧ (buildRoadmapEntry fileWip).status_class
        = statusClassOf (buildRoadmapEntry fileWip).status
    ∧ (buildRoadmapEntry fileWip).status_class = "status-now" := by
  have he : buildRoadmapEntry fileWip ∈ loadRoadmap 0 [fileWip] := by
    simp [loadRoadmap, sortFilesByName, List.mergeSort]
  have h := status_class_invariant 0 [fileWip] _ he
  exact ⟨h.1, h.2.1, by decide⟩

/-- If every nonempty `date:` value in the lines fails ISO parsing, the
scan ends with no `published_at`. -/
theorem postScan_none_of_all_bad (lines : List String)
    (h : ∀ line ∈ lines, isDateLine line = true → fieldValue line ≠ "" →
      fromisoformat (fieldValue line) = none) :
    (postScan none lines).1 = none := by
  induction lines with
  | nil => rfl
  | cons line rest ih =>
    have hrest := fun l hl => h l (List.mem_cons_of_mem _ hl)
    by_cases h1 : isDateLine line = true
    · by_cases h2 : fieldValue line = ""
      · simpa [postScan, h1, h2] using ih hrest
      · have hbad := h line (List.mem_cons_self _ _) h1 h2
        simpa [postScan, h1, h2, hbad] using ih hrest
    · simpa [postScan, h1] using ih hrest

/-- If every `progress:` value in the lines fails the parse-and-range rule,
the scan ends with no progress, whatever happens to status and deadline. -/
theorem roadScan_progress_none_of_all_bad (lines : List String)
    (h : ∀ line ∈ lines, isProgressLine line = true →
      ∀ n : Int, parsePyInt (progressValue line) = some n → ¬(0 ≤ n ∧ n ≤ 100)) :
    ∀ st dl, (roadScan st dl none lines).1.2.2 = none := by
  induction lines with
  | nil => intro st dl; rfl
  | cons line rest ih =>
    intro st dl
    have hrest := fun l hl => h l (List.mem_cons_of_mem _ hl)
    by_cases h1 : isStatusLine line = true
    · simpa [roadScan, h1] using ih hrest _ dl
    · by_cases h2 : isDeadlineLine line = true
      · simpa [roadScan, h1, h2] using ih hrest st _
      · by_cases h3 : isProgressLine line = true
        · by_cases h4 : progressValue line = ""
          · simpa [roadScan, h1, h2, h3, h4] using ih hrest st dl
          · cases hp : parsePyInt (progressValue line) with
            | none => simpa [roadScan, h1, h2, h3, h4, hp] using ih hrest st dl
            | some n =>
              have hr : ¬(0 ≤ n ∧ n ≤ 100) := h line (List.mem_cons_self _ _) h3 n hp
              simpa [roadScan, h1, h2, h3, h4, hp, hr] using ih hrest st dl
        · simpa [roadScan, h1, h2, h3] using ih hrest st dl

/-- **C6.** Malformed field values never fail a parse or a load: a
document all of whose `date:` values fail ISO parsing builds with
`published_at` absent; one all of whose `progress:` values fail the
parse-and-range rule builds with `progress` absent; a deadline no format
accepts ranks as "no deadline" rather than erroring; and a single-file
load always yields exactly one built document. -/
theorem malformed_fields_degrade :
    (∀ lines : List String,
      (∀ line ∈ lines, isDateLine line = true → fieldValue line ≠ "" →
        fromisoformat (fieldValue line) = none) →
      (postScan none lines).1 = none)
    ∧ (∀ lines : List String,
      (∀ line ∈ lines, isProgressLine line = true →
        ∀ n : Int, parsePyInt (progressValue line) = some n → ¬(0 ≤ n ∧ n ≤ 100)) →
      ∀ st dl, (roadScan st dl none lines).1.2.2 = none)
    ∧ (∀ s : String, fromisoformat s = none → strptimeDash s = none →
        strptimeSlash s = none → parseDeadline (some s) = none)
    ∧ (∀ (f : SrcFile) (now : Int),
        (loadPosts [f]).length = 1 ∧ (loadRoadmap now [f]).length = 1) := by
  refine ⟨postScan_none_of_all_bad, roadScan_progress_none_of_all_bad, ?_, ?_⟩
  · intro s h1 h2 h3
    by_cases he : s = ""
    · simp [parseDeadline, he]
    · simp [parseDeadline, he, h1, h2, h3]
  · intro f now
    constructor
    · simp [loadPosts, sortFilesByName, List.mergeSort]
    · simp [loadRoadmap, sortFilesByName, List.mergeSort]

/-- Witness for C6: a bad date, an out-of-range progress, and an
unparseable deadline all degrade to absent fields on concrete documents,
which still build. -/
theorem malformed_fields_degrade_witness :
    (postScan none ["date: 2024-13-99"]).1 = none
    ∧ (roadScan "Now" none none ["progress: 999"]).1.2.2 = none
    ∧ parseDeadline (some "soon") = none
    ∧ (loadPosts [⟨"m.md", "date: 2024-13-99", 3⟩]).length = 1 := by
  refine ⟨malformed_fields_degrade.1 _ ?_, malformed_fields_degrade.2.1 _ ?_ "Now" none,
    malformed_fields_degrade.2.2.1 "soon" (by decide) (by decide) (by decide),
    (malformed_fields_degrade.2.2.2 ⟨"m.md", "date: 2024-13-99", 3⟩ 0).1⟩
  · intro line hl
    rw [List.mem_singleton] at hl
    subst hl
    intro _ _
    decide
  · intro line hl
    rw [List.mem_singleton] at hl
    subst hl
    intro _ n hn
    rw [show parsePyInt (progressValue "progress: 999") = some 999 from by decide] at hn
    simp only [Option.some.injEq] at hn
    omega

/-- A list starts with itself followed by anything. -/
theorem listStartsWith_append (a c : List Char) : listStartsWith (a ++ c) a = true := by
  induction a with
  | nil => cases c <;> rfl
  | cons x xs ih => simp [listStartsWith, ih]

/-- Right-stripping distributes over append when the left part is already
right-stripped. -/
theorem pyRstripData_append (a b : List Char) (h : pyRstripData a = a) :
    pyRstripData (a ++ b) = a ++ pyRstripData b := by
  have ha : (a.reverse.dropWhile isPySpace) = a.reverse := by
    have := congrArg List.reverse h
    simpa [pyRstripData] using this
  unfold pyRstripData
  rw [List.reverse_append, List.dropWhile_append]
  by_cases hb : (b.reverse.dropWhile isPySpace).isEmpty = true
  · simp only [hb, if_true, ha, List.reverse_reverse]
    rw [List.isEmpty_iff] at hb
    simp [hb]
  · simp only [hb]
    simp [List.reverse_append]

/-- A title line's data starts with `#`. -/
theorem titleLine_data {l0 : String} (h : startsWithS l0 "# " = true) :
    ∃ t, l0.data = '#' :: t := by
  unfold startsWithS at h
  cases hd : l0.data with
  | nil => rw [hd] at h; exact absurd h (by decide)
  | cons c cs =>
    rw [hd] at h
    have hc : c = '#' := by
      have : (c = '#' && listStartsWith cs [' ']) = true := h
      exact decide_eq_true_eq.mp (Bool.and_elim_left this)
    exact ⟨cs, by rw [hc]⟩

/-- Stripping text that begins with an already-right-stripped `#`-headed
line leaves that line as a prefix. -/
theorem strip_keeps_title_head {l0 : String} (b : List Char)
    (ht : startsWithS l0 "# " = true) (hr : pyRstrip l0 = l0) :
    listStartsWith (pyStripData (l0.data ++ b)) l0.data = true := by
  obtain ⟨t, hd⟩ := titleLine_data ht
  have hr' : pyRstripData l0.data = l0.data := congrArg String.data hr
  unfold pyStripData
  rw [pyRstripData_append _ _ hr']
  unfold pyLstripData
  rw [hd, List.cons_append, List.dropWhile_cons_of_neg (by decide), ← List.cons_append, ← hd]
  exact listStartsWith_append _ _

/-- **C8.** The text handed to the markdown renderer includes the title
line (when present) prepended to the field-filtered body for a post — in
particular the render text then starts with the title line — while for a
roadmap entry it is the field-filtered body only, title line excluded;
without a title line both kinds render the body only. -/
theorem render_input_asymmetry (l0 : String) (rest : List String)
    (h : startsWithS l0 "# " = true) :
    (parseMarkdownLines (l0 :: rest)).2.2.1
        = pyStrip (joinNL (l0 :: (postScan none rest).2))
    ∧ (pyRstrip l0 = l0 →
        listStartsWith ((parseMarkdownLines (l0 :: rest)).2.2.1).data l0.data = true)
    ∧ (parseRoadmapLines (l0 :: rest)).2.2.1
        = pyStrip (joinNL (roadScan "Now" none none rest).2)
    ∧ (∀ lines : List String, hasTitleLine lines = false →
        (parseMarkdownLines lines).2.2.1 = pyStrip (joinNL (postScan none lines).2)
        ∧ (parseRoadmapLines lines).2.2.1
            = pyStrip (joinNL (roadScan "Now" none none lines).2)) := by
  have h1 : (parseMarkdownLines (l0 :: rest)).2.2.1
      = pyStrip (joinNL (l0 :: (postScan none rest).2)) := by
    simp [parseMarkdownLines, hasTitleLine, h]
  refine ⟨h1, ?_, ?_, ?_⟩
  · intro hr
    rw [h1]
    obtain ⟨b, hb⟩ : ∃ b,
        joinNLData (l0.data :: ((postScan none rest).2.map String.data)) = l0.data ++ b := by
      cases hbs : (postScan none rest).2.map String.data with
      | nil => exact ⟨[], by simp [joinNLData]⟩
      | cons y ys => exact ⟨'\n' :: joinNLData (y :: ys), rfl⟩
    show listStartsWith (pyStripData (joinNLData _)) l0.data = true
    rw [List.map_cons, hb]
    exact strip_keeps_title_head b h hr
  · simp [parseRoadmapLines, hasTitleLine, h]
  · intro lines hf
    cases lines with
    | nil => exact ⟨rfl, rfl⟩
    | cons x xs =>
      have hx : startsWithS x "# " = false := by simpa [hasTitleLine] using hf
      exact ⟨by simp [parseMarkdownLines, hasTitleLine, hx],
        by simp [parseRoadmapLines, hasTitleLine, hx]⟩

/-- Witness for C8: on a concrete titled document the post render text is
the title line plus the filtered body and starts with the title line,
while the roadmap render text is the body alone. -/
theorem render_input_asymmetry_witness :
    (parseMarkdownLines ["# Title", "date: 2024-01-05", "Body."]).2.2.1 = "# Title\nBody."
    ∧ (parseRoadmapLines ["# Title", "status: now", "Body."]).2.2.1 = "Body."
    ∧ listStartsWith
        ((parseMarkdownLines ["# Title", "date: 2024-01-05", "Body."]).2.2.1).data
        ("# Title" : String).data = true := by
  refine ⟨by decide, by decide, ?_⟩
  exact (render_input_asymmetry "# Title" ["date: 2024-01-05", "Body."]
    (by decide)).2.1 (by decide)

/-- Two prefixes with different head characters cannot both match. -/
theorem startsWith_excl (a b : String) {s : String} {ca cb : Char} {ta tb : List Char}
    (hda : a.data = ca :: ta) (hdb : b.data = cb :: tb) (hne : ca ≠ cb)
    (h : startsWithS s a = true) : startsWithS s b = false := by
  unfold startsWithS at h ⊢
  rw [hda] at h
  rw [hdb]
  cases hd : s.data with
  | nil => rw [hd] at h; exact absurd h (by simp [listStartsWith])
  | cons c cs =>
    rw [hd] at h
    have hc : c = ca := by
      have hh : (decide (c = ca) && listStartsWith cs ta) = true := h
      exact of_decide_eq_true (Bool.and_elim_left hh)
    subst hc
    simp [listStartsWith, decide_eq_false hne]

/-- A `status:` line is not a `deadline:` line. -/
theorem statusLine_not_deadline {l : String} (h : isStatusLine l = true) :
    isDeadlineLine l = false :=
  startsWith_excl "status:" "deadline:" rfl rfl (by decide) h

/-- A `status:` line is not a `progress:` line. -/
theorem statusLine_not_progress {l : String} (h : isStatusLine l = true) :
    isProgressLine l = false :=
  startsWith_excl "status:" "progress:" rfl rfl (by decide) h

/-- A `deadline:` line is not a `progress:` line. -/
theorem deadlineLine_not_progress {l : String} (h : isDeadlineLine l = true) :
    isProgressLine l = false :=
  startsWith_excl "deadline:" "progress:" rfl rfl (by decide) h

/-- The roadmap scan's three fields evolve independently, each as a left
fold of its own override step over the lines. -/
theorem roadScan_foldl (lines : List String) :
    ∀ st dl pr,
      (roadScan st dl pr lines).1.1 = lines.foldl stepStatus st
      ∧ (roadScan st dl pr lines).1.2.1 = lines.foldl stepDeadline dl
      ∧ (roadScan st dl pr lines).1.2.2 = lines.foldl stepProgress pr := by
  induction lines with
  | nil => intro st dl pr; exact ⟨rfl, rfl, rfl⟩
  | cons line rest ih =>
    intro st dl pr
    by_cases h1 : isStatusLine line = true
    · have hd := statusLine_not_deadline h1
      have hp := statusLine_not_progress h1
      by_cases hv : fieldValue line = ""
      · simpa [roadScan, stepStatus, stepDeadline, stepProgress, isValidProgressLine,
          h1, hd, hp, hv] using ih st dl pr
      · simpa [roadScan, stepStatus, stepDeadline, stepProgress, isValidProgressLine,
          h1, hd, hp, hv] using ih (fieldValue line) dl pr
    · by_cases h2 : isDeadlineLine line = true
      · have hp := deadlineLine_not_progress h2
        by_cases hv : fieldValue line = ""
        · simpa [roadScan, stepStatus, stepDeadline, stepProgress, isValidProgressLine,
            h1, h2, hp, hv] using ih st dl pr
        · simpa [roadScan, stepStatus, stepDeadline, stepProgress, isValidProgressLine,
            h1, h2, hp, hv] using ih st (some (fieldValue line)) pr
      · by_cases h3 : isProgressLine line = true
        · by_cases hv : progressValue line = ""
          · have hv' : parsePyInt (progressValue line) = none := by
              rw [hv]; rfl
            simpa [roadScan, stepStatus, stepDeadline, stepProgress, isValidProgressLine,
              h1, h2, h3, hv, hv'] using ih st dl pr
          · cases hp : parsePyInt (progressValue line) with
            | none =>
              simpa [roadScan, stepStatus, stepDeadline, stepProgress, isValidProgressLine,
                h1, h2, h3, hv, hp] using ih st dl pr
            | some n =>
              by_cases hr : 0 ≤ n ∧ n ≤ 100
              · simpa [roadScan, stepStatus, stepDeadline, stepProgress, isValidProgressLine,
                  h1, h2, h3, hv, hp, hr] using ih st dl (some n)
              · simpa [roadScan, stepStatus, stepDeadline, stepProgress, isValidProgressLine,
                  h1, h2, h3, hv, hp, hr] using ih st dl pr
        · simpa [roadScan, stepStatus, stepDeadline, stepProgress, isValidProgressLine,
            h1, h2, h3] using ih st dl pr

/-- The post scan's `published_at` is a left fold of the date override
step. -/
theorem postScan_foldl (lines : List String) :
    ∀ pub, (postScan pub lines).1 = lines.foldl stepDate pub := by
  induction lines with
  | nil => intro pub; rfl
  | cons line rest ih =>
    intro pub
    by_cases h1 : isDateLine line = true
    · by_cases hv : fieldValue line = ""
      · simpa [postScan, stepDate, h1, hv] using ih pub
      · simpa [postScan, stepDate, h1, hv] using ih (fromisoformat (fieldValue line))
    · simpa [postScan, stepDate, h1] using ih pub

/-- A fold of an "accept-or-keep" override step is decided by the last
accepted line, and keeps the initial value when no line is accepted. -/
theorem foldl_override_eq_find {β : Type} (p : String → Bool) (v : String → β) :
    ∀ (lines : List String) (init : β),
      lines.foldl (fun acc l => if p l then v l else acc) init
        = match lines.reverse.find? p with
          | some l => v l
          | none => init := by
  intro lines
  induction lines with
  | nil => intro init; rfl
  | cons line rest ih =>
    intro init
    rw [List.foldl_cons, ih, List.reverse_cons, List.find?_append]
    cases hfind : rest.reverse.find? p with
    | some l' => simp [hfind]
    | none =>
      cases hp : p line <;> simp [hfind, List.find?, hp]

/-- **C10.** With repeated field lines, later lines override earlier ones
under per-field acceptance rules: for `status` and `deadline` the last
nonempty value wins and empty values are ignored; for `progress` the last
value that parses to an integer in `[0, 100]` wins; for a post's `date`
the last nonempty value wins *as its parse result*, so a later malformed
date resets `published_at` to absent even after an earlier successful one.
Concrete conjuncts exercise each rule. -/
theorem repeated_field_lines_override :
    (∀ (lines : List String) (st : String) (dl : Option String) (pr : Option Int),
      (roadScan st dl pr lines).1.1
        = (match lines.reverse.find? (fun l => isStatusLine l && fieldValue l != "") with
           | some l => fieldValue l
           | none => st)
      ∧ (roadScan st dl pr lines).1.2.1
        = (match lines.reverse.find? (fun l => isDeadlineLine l && fieldValue l != "") with
           | some l => some (fieldValue l)
           | none => dl)
      ∧ (roadScan st dl pr lines).1.2.2
        = (match lines.reverse.find? isValidProgressLine with
           | some l => parsePyInt (progressValue l)
           | none => pr))
    ∧ (∀ (lines : List String) (pub : Option PyDateTime),
      (postScan pub lines).1
        = (match lines.reverse.find? (fun l => isDateLine l && fieldValue l != "") with
           | some l => fromisoformat (fieldValue l)
           | none => pub))
    ∧ (roadScan "Now" (some "2024-01-05") (some 50)
        ["status:", "deadline:   ", "progress: 999", "progress: abc"]).1
        = ("Now", some "2024-01-05", some 50)
    ∧ (postScan (some ⟨2024, 1, 5, 0, 0, 0⟩) ["date: 2024-01-06", "Date: not-a-date"]).1
        = none
    ∧ (roadScan "Now" none none
        ["status: later", "status: done", "progress: 10", "progress: 80"]).1
        = ("done", none, some 80) := by
  refine ⟨?_, ?_, by decide, by decide, by decide⟩
  · intro lines st dl pr
    obtain ⟨hs, hd, hp⟩ := roadScan_foldl lines st dl pr
    refine ⟨?_, ?_, ?_⟩
    · rw [hs]; exact foldl_override_eq_find _ _ lines st
    · rw [hd]; exact foldl_override_eq_find _ _ lines dl
    · rw [hp]; exact foldl_override_eq_find _ _ lines pr
  · intro lines pub
    rw [postScan_foldl lines pub]
    exact foldl_override_eq_find _ _ lines pub

/-- Counterexample to C3 as stated: on the value `50%%` the code strips
*all* trailing `%` and stores progress 50, while the claim's rule — strip
one trailing `%` if present, then parse — rejects the value, so "present
only when the claim's rule accepts" fails. -/
theorem progress_percent_strip_counterexample :
    (parseRoadmapEntry "progress: 50%%").2.2.2.2.1 = some 50
    ∧ progressRuleSpec "50%%" = none
    ∧ stripOneTrailingPct "50%%" = "50%"
    ∧ parsePyInt "50%" = none := by
  refine ⟨by decide, by decide, by decide, by decide⟩

/-- **C3 (amended:** the code strips *all* trailing `%` characters, not
just one**).** A stored progress value always lies in `[0, 100]` and stems
from a `progress:` line whose value, after stripping all trailing `%`,
parses to exactly that integer; out-of-range or non-numeric values are
ignored, not clamped: `105`, `-1` and `abc` yield absent, `50%` (and
`50%%`) yield 50. -/
theorem progress_parsing_amended :
    (∀ (lines : List String) (st : String) (dl : Option String) (p : Int),
      (roadScan st dl none lines).1.2.2 = some p →
      0 ≤ p ∧ p ≤ 100
      ∧ ∃ line ∈ lines, isProgressLine line = true
          ∧ parsePyInt (progressValue line) = some p)
    ∧ (∀ (text : String) (p : Int),
        (parseRoadmapEntry text).2.2.2.2.1 = some p →
        0 ≤ p ∧ p ≤ 100
        ∧ ∃ line ∈ (splitlines text).map pyRstrip, isProgressLine line = true
            ∧ parsePyInt (progressValue line) = some p)
    ∧ (parseRoadmapEntry "progress: 105").2.2.2.2.1 = none
    ∧ (parseRoadmapEntry "progress: -1").2.2.2.2.1 = none
    ∧ (parseRoadmapEntry "progress: abc").2.2.2.2.1 = none
    ∧ (parseRoadmapEntry "progress: 50%").2.2.2.2.1 = some 50
    ∧ (parseRoadmapEntry "progress: 50%%").2.2.2.2.1 = some 50 := by
  have main : ∀ (lines : List String) (st : String) (dl : Option String) (p : Int),
      (roadScan st dl none lines).1.2.2 = some p →
      0 ≤ p ∧ p ≤ 100
      ∧ ∃ line ∈ lines, isProgressLine line = true
          ∧ parsePyInt (progressValue line) = some p := by
    intro lines st dl p h
    have hcf : (roadScan st dl none lines).1.2.2
        = match lines.reverse.find? isValidProgressLine with
          | some l => parsePyInt (progressValue l)
          | none => none := by
      rw [(roadScan_foldl lines st dl none).2.2]
      exact foldl_override_eq_find _ _ lines none
    rw [hcf] at h
    cases hfind : lines.reverse.find? isValidProgressLine with
    | none =>
      rw [hfind] at h
      have h' : (none : Option Int) = some p := h
      exact absurd h' (by simp)
    | some l =>
      rw [hfind] at h
      have h' : parsePyInt (progressValue l) = some p := h
      have hval : isValidProgressLine l = true := List.find?_some hfind
      have hmem : l ∈ lines := List.mem_reverse.mp (List.mem_of_find?_eq_some hfind)
      unfold isValidProgressLine at hval
      have hprog : isProgressLine l = true := Bool.and_elim_left hval
      have hrest := Bool.and_elim_right hval
      cases hp : parsePyInt (progressValue l) with
      | none =>
        rw [hp] at hrest
        have hrest' : false = true := hrest
        exact absurd hrest' (by simp)
      | some n =>
        rw [hp] at hrest
        have hrest' : decide (0 ≤ n ∧ n ≤ 100) = true := hrest
        have hr : 0 ≤ n ∧ n ≤ 100 := of_decide_eq_true hrest'
        rw [hp] at h'
        have hnp : n = p := by simpa using h'
        subst hnp
        exact ⟨hr.1, hr.2, l, hmem, hprog, hp⟩
  refine ⟨main, ?_, by decide, by decide, by decide, by decide, by decide⟩
  intro text p h
  have hproj : (parseRoadmapEntry text).2.2.2.2.1
      = (roadScan "Now" none none
          (if hasTitleLine ((splitlines text).map pyRstrip) = true
           then ((splitlines text).map pyRstrip).tail
           else (splitlines text).map pyRstrip)).1.2.2 := by
    unfold parseRoadmapEntry parseRoadmapLines
    by_cases ht : hasTitleLine ((splitlines text).map pyRstrip) = true <;> simp [ht]
  rw [hproj] at h
  by_cases ht : hasTitleLine ((splitlines text).map pyRstrip) = true
  · rw [if_pos ht] at h
    obtain ⟨h1, h2, line, hmem, h3⟩ := main _ _ _ _ h
    exact ⟨h1, h2, line, List.mem_of_mem_tail hmem, h3⟩
  · rw [if_neg ht] at h
    exact main _ _ _ _ h

/-- Witness for the amended C3: a scan over `progress: 30` then an
out-of-range `progress: 200` stores 30, and the theorem locates the line
accounting for it. -/
theorem progress_parsing_amended_witness :
    0 ≤ (30 : Int) ∧ (30 : Int) ≤ 100
    ∧ ∃ line ∈ ["progress: 30", "progress: 200"], isProgressLine line = true
        ∧ parsePyInt (progressValue line) = some 30 :=
  progress_parsing_amended.1 ["progress: 30", "progress: 200"] "Now" none 30 (by decide)
